import Mathlib

/-!
# Verification of the llms.txt generator web orchestrator

A shallow embedding of `web_app.py`: the background job processor
(`JobProcessor.process_job`), the HTTP handlers (`generate`, `get_status`,
`download_file`, `health`) and the periodic reclamation sweep
(`cleanup_old_jobs`), together with theorems settling the specification
claims about job lifecycle, error handling, file staging and reclamation.

The two module-level Python dicts `ACTIVE_JOBS` and `COMPLETED_JOBS` are
modelled as association lists with Python-dict semantics (`alookup`,
`ainsert`, `aerase`).  The filesystem is modelled as a map from paths to
file contents plus a list of existing directories.  Timestamps
(`time.time()`) are passed in as explicit `Int` parameters.  The external
generator collaborator (`self.generator.generate_llmstxt`) is an oracle
parameter returning either a result payload or the stringified exception
it raised.  `process_job` is embedded at statement granularity as a trace
of the shared states it produces, so that claims about intermediate
observability (the pending/completed move) can be settled; its final
state is the last element of the trace.
-/

/-- Python-dict lookup on an association list (first matching key). -/
def alookup {α : Type} : List (String × α) → String → Option α
  | [], _ => none
  | (k2, v) :: t, k => if k2 = k then some v else alookup t k

/-- Python-dict assignment `d[k] = v`: replace the value of an existing
key in place, otherwise append the new entry. -/
def ainsert {α : Type} : List (String × α) → String → α → List (String × α)
  | [], k, v => [(k, v)]
  | (k2, v2) :: t, k, v => if k2 = k then (k, v) :: t else (k2, v2) :: ainsert t k v

/-- Python-dict deletion `del d[k]` (removes the entry for `k`). -/
def aerase {α : Type} : List (String × α) → String → List (String × α)
  | [], _ => []
  | (k2, v2) :: t, k => if k2 = k then t else (k2, v2) :: aerase t k

/-- Python membership test `k in d`. -/
def amem {α : Type} (l : List (String × α)) (k : String) : Bool :=
  (alookup l k).isSome

/-- A JSON value, as delivered by `request.get_json()` and passed around
unchanged by the handlers. -/
inductive JValue where
  | jnull
  | jbool (b : Bool)
  | jnum (n : Int)
  | jstr (s : String)
  deriving DecidableEq, Repr

/-- Python truthiness of a JSON value, as used by `if include_full_text:`
and the conditional expression on the `llms_fulltxt` entry. -/
def JValue.truthy : JValue → Bool
  | .jnull => false
  | .jbool b => b
  | .jnum n => decide (n ≠ 0)
  | .jstr s => decide (s ≠ "")

/-- A JSON object body (`request.get_json()` result when it is an object). -/
abbrev Obj := List (String × JValue)

/-- Whether a list of characters starts with the given pattern. -/
def listStartsWith : List Char → List Char → Bool
  | _, [] => true
  | [], _ :: _ => false
  | a :: s, b :: p => a == b && listStartsWith s p

/-- Whether a string starts with the given pattern (Python `startswith`). -/
def strStartsWith (s pat : String) : Bool :=
  listStartsWith s.data pat.data

/-- Fueled worker for `pyReplace`.  Each step consumes at least one input
character and one unit of fuel, so fuel equal to the input length suffices
and the fuel-exhausted branch is unreachable in `pyReplace`. -/
def pyReplaceAux (pat repl : List Char) : Nat → List Char → List Char
  | 0, l => l
  | _ + 1, [] => []
  | fuel + 1, c :: rest =>
    if 0 < pat.length ∧ listStartsWith (c :: rest) pat = true then
      repl ++ pyReplaceAux pat repl fuel ((c :: rest).drop pat.length)
    else
      c :: pyReplaceAux pat repl fuel rest

/-- Python `s.replace(pat, repl)`: replaces every non-overlapping
occurrence of `pat` in `s`, scanning left to right. -/
def pyReplace (s pat repl : String) : String :=
  ⟨pyReplaceAux pat.data repl.data s.data.length s.data⟩

/-- Whether `pat` occurs as a substring starting at some position. -/
def listHasSubstr : List Char → List Char → Bool
  | [], pat => listStartsWith [] pat
  | c :: t, pat => listStartsWith (c :: t) pat || listHasSubstr t pat

/-- Whether `pat` occurs as a substring of `s` (Python `pat in s`). -/
def hasSubstr (s pat : String) : Bool :=
  listHasSubstr s.data pat.data

/-- Characters allowed in a URL scheme by `urllib.parse.urlsplit`. -/
def schemeChar (c : Char) : Bool :=
  c.isAlpha || c.isDigit || c == '+' || c == '-' || c == '.'

/-- The scheme-stripping step of `urllib.parse.urlsplit`: if the text up
to the first `:` is a wellformed scheme (leading ASCII letter, then
letters, digits, `+`, `-`, `.`), drop it together with the colon. -/
def dropScheme (cs : List Char) : List Char :=
  match cs.findIdx? (fun c => c == ':') with
  | some i =>
    if 0 < i ∧ (cs.headD ' ').isAlpha = true ∧ (cs.take i).all schemeChar = true then
      cs.drop (i + 1)
    else cs
  | none => cs

/-- Python `urlparse(url).netloc`: after stripping a wellformed scheme,
the netloc is the text following a leading `//` up to the next `/`, `?`
or `#`; if the remainder does not start with `//` the netloc is empty. -/
def pyNetloc (url : String) : String :=
  match dropScheme url.data with
  | '/' :: '/' :: t => ⟨t.takeWhile (fun c => !(c == '/' || c == '?' || c == '#'))⟩
  | _ => ""

/-- `os.path.join(tempDir, name)` for a directory without trailing slash
and a relative file name, as produced by `tempfile.mkdtemp` and the
`f"{domain}-llms.txt"` names. -/
def pathJoin (dir name : String) : String :=
  dir ++ "/" ++ name

/-- A record of `ACTIVE_JOBS`: the dict built at the start of
`process_job` (url, status `"processing"`, progress note, start time). -/
structure PendingJob where
  url : JValue
  status : String
  progress : String
  start_time : Int
  deriving DecidableEq, Repr

/-- The `"files"` sub-dict of a successful completed job. -/
structure JobFiles where
  llmstxt : String
  llms_fulltxt : Option String
  deriving DecidableEq, Repr

/-- The result payload returned by the external generator:
`result["llmstxt"]` is always present, `result["llms_fulltxt"]` is an
optional key, plus the processed-page count. -/
structure GenResult where
  llmstxt : String
  llms_fulltxt : Option String
  num_urls_processed : Nat
  deriving DecidableEq, Repr

/-- A record of `COMPLETED_JOBS`.  The success branch stores `result`,
`files` and `temp_dir`; the failure branch stores `error` and leaves the
other optional keys absent. -/
structure CompletedJob where
  url : JValue
  status : String
  result : Option GenResult
  error : Option String
  files : Option JobFiles
  completion_time : Int
  temp_dir : Option String
  deriving DecidableEq, Repr

/-- The shared mutable state: the two module-level job dicts plus the
filesystem (staged files and temporary directories). -/
structure ServerState where
  active : List (String × PendingJob)
  completed : List (String × CompletedJob)
  fs : List (String × String)
  dirs : List String
  deriving DecidableEq, Repr

/-- The state with no jobs and an empty filesystem. -/
def emptyState : ServerState :=
  { active := [], completed := [], fs := [], dirs := [] }

/-- The external generator call `self.generator.generate_llmstxt(url,
max_urls, include_full_text)`: returns a result payload or the
stringified exception it raised. -/
abbrev GenOracle := JValue → JValue → JValue → Except String GenResult

/-- The two statements of `process_job`'s exception handler: insert the
failed record into `COMPLETED_JOBS`, then delete the id from
`ACTIVE_JOBS` (guarded by a membership test in the source). -/
def failSteps (s : ServerState) (id : String) (url : JValue) (err : String)
    (t1 : Int) : List ServerState :=
  let c : CompletedJob :=
    { url := url, status := "failed", result := none, error := some err,
      files := none, completion_time := t1, temp_dir := none }
  let sA := { s with completed := ainsert s.completed id c }
  let sB := { sA with active := aerase sA.active id }
  [sA, sB]

/-- The two statements finishing the success path of `process_job`:
insert the completed record (with result, file paths and temp dir) into
`COMPLETED_JOBS`, then delete the id from `ACTIVE_JOBS`. -/
def completeSteps (s : ServerState) (id : String) (url : JValue)
    (result : GenResult) (p1 : String) (p2 : Option String) (t1 : Int)
    (tdir : String) : List ServerState :=
  let c : CompletedJob :=
    { url := url, status := "completed", result := some result, error := none,
      files := some { llmstxt := p1, llms_fulltxt := p2 },
      completion_time := t1, temp_dir := some tdir }
  let sA := { s with completed := ainsert s.completed id c }
  let sB := { sA with active := aerase sA.active id }
  [sA, sB]

/-- Error text recorded when `urlparse` is applied to a non-string URL
value.  The exact CPython exception text for this case is a runtime
detail; no claim depends on it. -/
def urlparseTypeError : String := "urlparse: url is not a string"

/-- `JobProcessor.process_job(job_id, url, max_urls, include_full_text)`
embedded at statement granularity: the list of shared states after each
statement that mutates `ACTIVE_JOBS`, `COMPLETED_JOBS` or the filesystem.
`gi` is `self.generator is not None`, `gen` the generator oracle, `tdir`
the directory returned by `tempfile.mkdtemp()`, `t0` and `t1` the values
of the two `time.time()` calls. -/
def processJobTrace (gi : Bool) (gen : GenOracle) (id : String)
    (url mu ift : JValue) (tdir : String) (t0 t1 : Int)
    (s : ServerState) : List ServerState :=
  let rec0 : PendingJob :=
    { url := url, status := "processing", progress := "Initializing...",
      start_time := t0 }
  let s1 := { s with active := ainsert s.active id rec0 }
  match gi with
  | false =>
    s1 :: failSteps s1 id url "Generator not initialized - check API keys" t1
  | true =>
    let s2 :=
      { s1 with active :=
          ainsert s1.active id { rec0 with progress := "Mapping website..." } }
    match gen url mu ift with
    | .error e => s1 :: s2 :: failSteps s2 id url e t1
    | .ok result =>
      let s3 := { s2 with dirs := tdir :: s2.dirs }
      match url with
      | .jstr ustr =>
        let domain := pyReplace (pyNetloc ustr) "www." ""
        let llmstxt_path := pathJoin tdir (domain ++ "-llms.txt")
        let llms_fulltxt_path := pathJoin tdir (domain ++ "-llms-full.txt")
        let s4 := { s3 with fs := ainsert s3.fs llmstxt_path result.llmstxt }
        if ift.truthy then
          match result.llms_fulltxt with
          | some full =>
            let s5 :=
              { s4 with fs := ainsert s4.fs llms_fulltxt_path full }
            s1 :: s2 :: s3 :: s4 :: s5 ::
              completeSteps s5 id url result llmstxt_path
                (some llms_fulltxt_path) t1 tdir
          | none =>
            s1 :: s2 :: s3 :: s4 ::
              failSteps s4 id url "\x27llms_fulltxt\x27" t1
        else
          s1 :: s2 :: s3 :: s4 ::
            completeSteps s4 id url result llmstxt_path none t1 tdir
      | _ => s1 :: s2 :: s3 :: failSteps s3 id url urlparseTypeError t1

/-- The last state of a trace (the trace is nonempty by construction). -/
def lastD {α : Type} : List α → α → α
  | [], d => d
  | [a], _ => a
  | _ :: b :: t, d => lastD (b :: t) d

/-- The final shared state produced by one run of
`JobProcessor.process_job`. -/
def process_job (gi : Bool) (gen : GenOracle) (id : String)
    (url mu ift : JValue) (tdir : String) (t0 t1 : Int)
    (s : ServerState) : ServerState :=
  lastD (processJobTrace gi gen id url mu ift tdir t0 t1 s) s

/-- The response of `GET /api/status/<job_id>`: the live pending record,
the completed record with `files` and `temp_dir` deleted from a copy, or
a 404 error body. -/
inductive StatusResponse where
  | ok_pending (p : PendingJob)
  | ok_completed (c : CompletedJob)
  | not_found
  deriving DecidableEq, Repr

/-- The HTTP status code of a `get_status` response. -/
def StatusResponse.code : StatusResponse → Nat
  | .ok_pending _ => 200
  | .ok_completed _ => 200
  | .not_found => 404

/-- `get_status(job_id)`: checks `ACTIVE_JOBS` first, then
`COMPLETED_JOBS` (stripping `files` and `temp_dir` from a copy of the
record), else 404.  The returned state is the server state after the
handler: the handler never mutates the stored dicts, all deletions act on
the copy. -/
def get_status (s : ServerState) (id : String) : StatusResponse × ServerState :=
  match alookup s.active id with
  | some p => (.ok_pending p, s)
  | none =>
    match alookup s.completed id with
    | some c => (.ok_completed { c with files := none, temp_dir := none }, s)
    | none => (.not_found, s)

/-- The response of `GET /api/download/<job_id>/<file_type>`. -/
inductive DownloadResponse where
  | fileAttachment (contents : String)
  | notFoundJob
  | notCompleted
  | fileNotFound
  | sendFailed
  deriving DecidableEq, Repr

/-- The HTTP status code of a `download_file` response (`send_file` on a
path missing from disk raises, which Flask surfaces as a 500). -/
def DownloadResponse.code : DownloadResponse → Nat
  | .fileAttachment _ => 200
  | .notFoundJob => 404
  | .notCompleted => 400
  | .fileNotFound => 404
  | .sendFailed => 500

/-- `send_file(path, as_attachment=True)`: the bytes stored at `path`. -/
def sendFileResp (s : ServerState) (p : String) : DownloadResponse :=
  match alookup s.fs p with
  | some contents => .fileAttachment contents
  | none => .sendFailed

/-- `download_file(job_id, file_type)`: 404 if the id is not in
`COMPLETED_JOBS` (pending jobs included), 400 if the completed record's
status is not `"completed"`, then serves the requested kind if its path
is present and truthy, else 404. -/
def download_file (s : ServerState) (id ftype : String) : DownloadResponse :=
  match alookup s.completed id with
  | none => .notFoundJob
  | some job =>
    if job.status ≠ "completed" then .notCompleted
    else
      match job.files with
      | none => .fileNotFound
      | some fl =>
        if ftype = "llmstxt" then
          if fl.llmstxt = "" then .fileNotFound else sendFileResp s fl.llmstxt
        else if ftype = "llms_fulltxt" then
          match fl.llms_fulltxt with
          | some p => if p = "" then .fileNotFound else sendFileResp s p
          | none => .fileNotFound
        else .fileNotFound

/-- The response of `POST /api/generate`. -/
inductive GenerateResponse where
  | started (job_id message : String)
  | errorResp (msg : String)
  deriving DecidableEq, Repr

/-- The HTTP status code of a `generate` response: the blanket exception
handler turns every failure, the `BadRequest` for a missing URL included,
into a 500. -/
def GenerateResponse.code : GenerateResponse → Nat
  | .started _ _ => 200
  | .errorResp _ => 500

/-- The arguments handed to the background thread spawned by `generate`:
`threading.Thread(target=process_job, args=(job_id, url, max_urls,
include_full_text))`. -/
structure Spawned where
  job_id : String
  url : JValue
  max_urls : JValue
  include_full_text : JValue
  deriving DecidableEq, Repr

/-- `generate()`: body `none` models a request whose JSON could not be
obtained.  If the body is falsy or lacks the `"url"` key, the raised
`BadRequest("URL is required")` is caught by the blanket handler and
returned as a 500 error body.  Otherwise a background task is spawned
with the url and the `.get`-defaulted `max_urls` and `include_full_text`
values, and the started response is returned immediately; `freshId` is
the `uuid.uuid4()` value.  No job record is created by the handler
itself. -/
def generate (body : Option Obj) (freshId : String) :
    GenerateResponse × Option Spawned :=
  match body with
  | none => (.errorResp "400 Bad Request: URL is required", none)
  | some data =>
    if data = [] then (.errorResp "400 Bad Request: URL is required", none)
    else
      match alookup data "url" with
      | none => (.errorResp "400 Bad Request: URL is required", none)
      | some u =>
        (.started freshId "Job started successfully",
         some { job_id := freshId, url := u,
                max_urls := (alookup data "max_urls").getD (.jnum 20),
                include_full_text :=
                  (alookup data "include_full_text").getD (.jbool true) })

/-- The response of `GET /health`. -/
structure HealthResp where
  status : String
  generator_ready : Bool
  active_jobs : Nat
  completed_jobs : Nat
  deriving DecidableEq, Repr

/-- `health()`: generator readiness plus the sizes of the two job
dicts. -/
def health (gi : Bool) (s : ServerState) : HealthResp :=
  { status := "healthy", generator_ready := gi,
    active_jobs := s.active.length, completed_jobs := s.completed.length }

/-- `shutil.rmtree(d)` on the file map: every file whose path lies under
the directory disappears. -/
def rmtreeFiles (fs : List (String × String)) (d : String) :
    List (String × String) :=
  fs.filter (fun kv => !(strStartsWith kv.1 (d ++ "/")))

/-- `shutil.rmtree(d)` on the directory list: the directory and its
subdirectories disappear. -/
def rmtreeDirs (dirs : List String) (d : String) : List String :=
  dirs.filter (fun x => !(x == d || strStartsWith x (d ++ "/")))

/-- The per-job body of the first loop of `cleanup_old_jobs`: if the old
record has a `temp_dir` key, remove that tree (deletion errors are
swallowed by the source's bare `except`; the model's filesystem
operations do not fail). -/
def rmJobDirs (s : ServerState) (kv : String × CompletedJob) : ServerState :=
  match kv.2.temp_dir with
  | some d => { s with fs := rmtreeFiles s.fs d, dirs := rmtreeDirs s.dirs d }
  | none => s

/-- `cleanup_old_jobs()` run at time `now`: collects the completed jobs
whose completion time is before `now - 3600`, removes their temp trees,
deletes their records, and re-arms the one-shot timer for `now + 1800`
(the returned `Int` is the scheduled time of the next run). -/
def cleanup_old_jobs (now : Int) (s : ServerState) : ServerState × Int :=
  let cutoff := now - 3600
  let old := s.completed.filter (fun kv => decide (kv.2.completion_time < cutoff))
  let s1 := old.foldl rmJobDirs s
  let s2 := { s1 with completed := (old.map Prod.fst).foldl aerase s1.completed }
  (s2, now + 1800)

/-- Folding `get_status` queries over the state: the state after a
sequence of status queries. -/
def statusFold (s : ServerState) (qs : List String) : ServerState :=
  qs.foldl (fun st q => (get_status st q).2) s

theorem alookup_ainsert_self {α : Type} (l : List (String × α)) (k : String) (v : α) :
    alookup (ainsert l k v) k = some v := by
  induction l with
  | nil => simp [ainsert, alookup]
  | cons h t ih =>
    obtain ⟨k2, v2⟩ := h
    by_cases hk : k2 = k
    · simp [ainsert, hk, alookup]
    · simp [ainsert, hk, alookup, ih]

theorem alookup_ainsert_ne {α : Type} {k k2 : String} (h : k ≠ k2)
    (l : List (String × α)) (v : α) :
    alookup (ainsert l k2 v) k = alookup l k := by
  induction l with
  | nil => simp [ainsert, alookup, Ne.symm h]
  | cons hd t ih =>
    obtain ⟨a, b⟩ := hd
    by_cases ha : a = k2
    · subst ha
      simp [ainsert, alookup, Ne.symm h]
    · simp [ainsert, ha, alookup, ih]

theorem alookup_aerase_ne {α : Type} {k k2 : String} (h : k ≠ k2)
    (l : List (String × α)) :
    alookup (aerase l k2) k = alookup l k := by
  induction l with
  | nil => simp [aerase]
  | cons hd t ih =>
    obtain ⟨a, b⟩ := hd
    by_cases ha : a = k2
    · subst ha
      simp [aerase, alookup, Ne.symm h]
    · simp [aerase, ha, alookup, ih]

theorem ainsert_not_mem {α : Type} {l : List (String × α)} {k : String}
    (h : alookup l k = none) (v : α) :
    ainsert l k v = l ++ [(k, v)] := by
  induction l with
  | nil => simp [ainsert]
  | cons hd t ih =>
    obtain ⟨a, b⟩ := hd
    by_cases ha : a = k
    · simp [alookup, ha] at h
    · simp [alookup, ha] at h
      simp [ainsert, ha, ih h]

theorem aerase_append_not_mem {α : Type} {l : List (String × α)} {k : String}
    (h : alookup l k = none) (v : α) :
    aerase (l ++ [(k, v)]) k = l := by
  induction l with
  | nil => simp [aerase]
  | cons hd t ih =>
    obtain ⟨a, b⟩ := hd
    by_cases ha : a = k
    · simp [alookup, ha] at h
    · simp [alookup, ha] at h
      simp [aerase, ha, ih h]

theorem ainsert_append_hit {α : Type} {l : List (String × α)} {k : String}
    (h : alookup l k = none) (v w : α) :
    ainsert (l ++ [(k, v)]) k w = l ++ [(k, w)] := by
  induction l with
  | nil => simp [ainsert]
  | cons hd t ih =>
    obtain ⟨a, b⟩ := hd
    by_cases ha : a = k
    · simp [alookup, ha] at h
    · simp [alookup, ha] at h
      simp [ainsert, ha, ih h]

theorem alookup_erase_insert {α : Type} {l : List (String × α)} {k : String}
    (h : alookup l k = none) (v : α) :
    alookup (aerase (ainsert l k v) k) k = none := by
  rw [ainsert_not_mem h, aerase_append_not_mem h]
  exact h

theorem alookup_erase_insert2 {α : Type} {l : List (String × α)} {k : String}
    (h : alookup l k = none) (v w : α) :
    alookup (aerase (ainsert (ainsert l k v) k w) k) k = none := by
  rw [ainsert_not_mem h, ainsert_append_hit h, aerase_append_not_mem h]
  exact h

theorem mem_of_alookup {α : Type} {l : List (String × α)} {k : String} {v : α}
    (h : alookup l k = some v) : (k, v) ∈ l := by
  induction l with
  | nil => simp [alookup] at h
  | cons hd t ih =>
    obtain ⟨a, b⟩ := hd
    by_cases ha : a = k
    · subst ha
      simp [alookup] at h
      simp [h]
    · simp [alookup, ha] at h
      exact List.mem_cons_of_mem _ (ih h)

theorem alookup_eq_none_of_not_mem_keys {α : Type} {l : List (String × α)}
    {k : String} (h : k ∉ l.map Prod.fst) : alookup l k = none := by
  induction l with
  | nil => rfl
  | cons hd t ih =>
    obtain ⟨a, b⟩ := hd
    rw [List.map_cons, List.mem_cons] at h
    push_neg at h
    have ha : a ≠ k := Ne.symm h.1
    simp [alookup, ha, ih h.2]

theorem alookup_eq_of_mem_nodup {α : Type} {l : List (String × α)}
    (hnd : (l.map Prod.fst).Nodup) {k : String} {v : α} (h : (k, v) ∈ l) :
    alookup l k = some v := by
  induction l with
  | nil => simp at h
  | cons hd t ih =>
    obtain ⟨a, b⟩ := hd
    rw [List.map_cons, List.nodup_cons] at hnd
    rcases List.mem_cons.mp h with he | hm
    · cases he
      simp [alookup]
    · have ha : a ≠ k := by
        intro he2
        subst he2
        exact hnd.1 (List.mem_map.mpr ⟨(a, v), hm, rfl⟩)
      simp [alookup, ha, ih hnd.2 hm]

theorem alookup_aerase_self_nodup {α : Type} {l : List (String × α)}
    (hnd : (l.map Prod.fst).Nodup) (k : String) :
    alookup (aerase l k) k = none := by
  induction l with
  | nil => rfl
  | cons hd t ih =>
    obtain ⟨a, b⟩ := hd
    rw [List.map_cons, List.nodup_cons] at hnd
    by_cases ha : a = k
    · subst ha
      simp only [aerase, if_pos rfl]
      exact alookup_eq_none_of_not_mem_keys hnd.1
    · simp [aerase, ha, alookup, ih hnd.2]

theorem keys_aerase_sublist {α : Type} (l : List (String × α)) (k : String) :
    ((aerase l k).map Prod.fst).Sublist (l.map Prod.fst) := by
  induction l with
  | nil => exact List.Sublist.refl _
  | cons hd t ih =>
    obtain ⟨a, b⟩ := hd
    show ((if a = k then t else (a, b) :: aerase t k).map Prod.fst).Sublist _
    by_cases ha : a = k
    · rw [if_pos ha, List.map_cons]
      exact List.sublist_cons_self _ _
    · rw [if_neg ha, List.map_cons, List.map_cons]
      exact ih.cons₂ a

theorem nodup_keys_aerase {α : Type} {l : List (String × α)}
    (hnd : (l.map Prod.fst).Nodup) (k : String) :
    ((aerase l k).map Prod.fst).Nodup :=
  hnd.sublist (keys_aerase_sublist l k)

theorem alookup_aerase_none {α : Type} {l : List (String × α)} {k : String}
    (h : alookup l k = none) (k2 : String) :
    alookup (aerase l k2) k = none := by
  induction l with
  | nil => rfl
  | cons hd t ih =>
    obtain ⟨a, b⟩ := hd
    by_cases ha : a = k
    · simp [alookup, ha] at h
    · simp [alookup, ha] at h
      by_cases ha2 : a = k2
      · simp [aerase, ha2, h]
      · simp [aerase, ha2, alookup, ha, ih h]

theorem alookup_foldl_aerase_none {α : Type} {k : String} :
    ∀ (ids : List String) (l : List (String × α)), alookup l k = none →
      alookup (ids.foldl aerase l) k = none := by
  intro ids
  induction ids with
  | nil => intro l h; exact h
  | cons i rest ih =>
    intro l h
    exact ih (aerase l i) (alookup_aerase_none h i)

theorem alookup_foldl_aerase_mem {α : Type} {k : String} :
    ∀ (ids : List String) (l : List (String × α)),
      (l.map Prod.fst).Nodup → k ∈ ids →
      alookup (ids.foldl aerase l) k = none := by
  intro ids
  induction ids with
  | nil => intro l _ h; simp at h
  | cons i rest ih =>
    intro l hnd hk
    by_cases hik : k = i
    · subst hik
      exact alookup_foldl_aerase_none rest (aerase l k)
        (alookup_aerase_self_nodup hnd k)
    · rcases List.mem_cons.mp hk with he | hm
      · exact absurd he hik
      · exact ih (aerase l i) (nodup_keys_aerase hnd i) hm

theorem alookup_foldl_aerase_not_mem {α : Type} {k : String} :
    ∀ (ids : List String) (l : List (String × α)), k ∉ ids →
      alookup (ids.foldl aerase l) k = alookup l k := by
  intro ids
  induction ids with
  | nil => intro l _; rfl
  | cons i rest ih =>
    intro l h
    simp at h
    rw [List.foldl_cons, ih (aerase l i) h.2, alookup_aerase_ne h.1 l]

theorem alookup_filter_none {α : Type} {f : String × α → Bool}
    {l : List (String × α)} {k : String} (h : alookup l k = none) :
    alookup (l.filter f) k = none := by
  induction l with
  | nil => rfl
  | cons hd t ih =>
    obtain ⟨a, b⟩ := hd
    by_cases ha : a = k
    · simp [alookup, ha] at h
    · simp [alookup, ha] at h
      by_cases hf : f (a, b) = true
      · simp [List.filter, hf, alookup, ha, ih h]
      · simp only [List.filter, Bool.not_eq_true] at hf ⊢
        rw [hf]
        exact ih h

theorem alookup_filter_key_false {α : Type} {f : String × α → Bool}
    {l : List (String × α)} {k : String} (h : ∀ v, f (k, v) = false) :
    alookup (l.filter f) k = none := by
  induction l with
  | nil => rfl
  | cons hd t ih =>
    obtain ⟨a, b⟩ := hd
    by_cases ha : a = k
    · subst ha
      simp [List.filter, h b, ih]
    · by_cases hf : f (a, b) = true
      · simp [List.filter, hf, alookup, ha, ih]
      · simp only [List.filter, Bool.not_eq_true] at hf ⊢
        rw [hf]
        exact ih

theorem not_mem_filter_of_not_mem {α : Type} {l : List α} {f : α → Bool}
    {x : α} (h : x ∉ l) : x ∉ l.filter f := by
  intro hx
  exact h (List.mem_filter.mp hx).1

theorem not_mem_rmtreeDirs_self (dirs : List String) (d : String) :
    d ∉ rmtreeDirs dirs d := by
  intro h
  have := (List.mem_filter.mp h).2
  simp at this

theorem rmJobDirs_completed (s : ServerState) (kv : String × CompletedJob) :
    (rmJobDirs s kv).completed = s.completed := by
  cases htd : kv.2.temp_dir <;> simp [rmJobDirs, htd]

theorem rmJobDirs_active (s : ServerState) (kv : String × CompletedJob) :
    (rmJobDirs s kv).active = s.active := by
  cases htd : kv.2.temp_dir <;> simp [rmJobDirs, htd]

theorem foldl_rmJobDirs_completed :
    ∀ (l : List (String × CompletedJob)) (s : ServerState),
      (l.foldl rmJobDirs s).completed = s.completed := by
  intro l
  induction l with
  | nil => intro s; rfl
  | cons kv t ih =>
    intro s
    rw [List.foldl_cons, ih (rmJobDirs s kv), rmJobDirs_completed]

theorem foldl_rmJobDirs_active :
    ∀ (l : List (String × CompletedJob)) (s : ServerState),
      (l.foldl rmJobDirs s).active = s.active := by
  intro l
  induction l with
  | nil => intro s; rfl
  | cons kv t ih =>
    intro s
    rw [List.foldl_cons, ih (rmJobDirs s kv), rmJobDirs_active]

theorem rmJobDirs_fs_none {s : ServerState} {p : String}
    (h : alookup s.fs p = none) (kv : String × CompletedJob) :
    alookup (rmJobDirs s kv).fs p = none := by
  cases htd : kv.2.temp_dir with
  | none => simpa [rmJobDirs, htd] using h
  | some d =>
    simp only [rmJobDirs, htd]
    exact alookup_filter_none h

theorem foldl_rmJobDirs_fs_none {p : String} :
    ∀ (l : List (String × CompletedJob)) (s : ServerState),
      alookup s.fs p = none → alookup (l.foldl rmJobDirs s).fs p = none := by
  intro l
  induction l with
  | nil => intro s h; exact h
  | cons kv t ih =>
    intro s h
    exact ih (rmJobDirs s kv) (rmJobDirs_fs_none h kv)

theorem rmtreeFiles_gone {fs : List (String × String)} {d p : String}
    (hp : strStartsWith p (d ++ "/") = true) :
    alookup (rmtreeFiles fs d) p = none :=
  alookup_filter_key_false (fun _ => by simp [hp])

theorem foldl_rmJobDirs_fs_gone :
    ∀ (l : List (String × CompletedJob)) (s : ServerState)
      {kv : String × CompletedJob} {d p : String},
      kv ∈ l → kv.2.temp_dir = some d → strStartsWith p (d ++ "/") = true →
      alookup (l.foldl rmJobDirs s).fs p = none := by
  intro l
  induction l with
  | nil => intro s kv d p hm; simp at hm
  | cons hd t ih =>
    intro s kv d p hm htd hp
    rcases List.mem_cons.mp hm with he | hm2
    · subst he
      rw [List.foldl_cons]
      apply foldl_rmJobDirs_fs_none
      simp only [rmJobDirs, htd]
      exact rmtreeFiles_gone hp
    · exact ih (rmJobDirs s hd) hm2 htd hp

theorem rmJobDirs_dirs_not_mem {s : ServerState} {d : String}
    (h : d ∉ s.dirs) (kv : String × CompletedJob) :
    d ∉ (rmJobDirs s kv).dirs := by
  cases htd : kv.2.temp_dir with
  | none => simpa [rmJobDirs, htd] using h
  | some d2 =>
    simp only [rmJobDirs, htd]
    exact not_mem_filter_of_not_mem h

theorem foldl_rmJobDirs_dirs_not_mem {d : String} :
    ∀ (l : List (String × CompletedJob)) (s : ServerState),
      d ∉ s.dirs → d ∉ (l.foldl rmJobDirs s).dirs := by
  intro l
  induction l with
  | nil => intro s h; exact h
  | cons kv t ih =>
    intro s h
    exact ih (rmJobDirs s kv) (rmJobDirs_dirs_not_mem h kv)

theorem foldl_rmJobDirs_dirs_gone :
    ∀ (l : List (String × CompletedJob)) (s : ServerState)
      {kv : String × CompletedJob} {d : String},
      kv ∈ l → kv.2.temp_dir = some d →
      d ∉ (l.foldl rmJobDirs s).dirs := by
  intro l
  induction l with
  | nil => intro s kv d hm; simp at hm
  | cons hd t ih =>
    intro s kv d hm htd
    rcases List.mem_cons.mp hm with he | hm2
    · subst he
      rw [List.foldl_cons]
      apply foldl_rmJobDirs_dirs_not_mem
      simp only [rmJobDirs, htd]
      exact not_mem_rmtreeDirs_self _ _
    · exact ih (rmJobDirs s hd) hm2 htd

theorem get_status_state (s : ServerState) (id : String) :
    (get_status s id).2 = s := by
  unfold get_status
  cases alookup s.active id with
  | some p => rfl
  | none =>
    cases alookup s.completed id with
    | some c => rfl
    | none => rfl

theorem statusFold_eq (s : ServerState) (qs : List String) :
    statusFold s qs = s := by
  induction qs generalizing s with
  | nil => rfl
  | cons q t ih =>
    show statusFold (get_status s q).2 t = s
    rw [get_status_state, ih]

theorem string_append_left_cancel_ne {a x y : String} (h : x ≠ y) :
    a ++ x ≠ a ++ y := by
  intro he
  apply h
  have hd : (a ++ x).data = (a ++ y).data := by rw [he]
  rw [String.data_append, String.data_append] at hd
  exact String.ext (List.append_cancel_left hd)

theorem llms_paths_ne (tdir domain : String) :
    pathJoin tdir (domain ++ "-llms.txt") ≠ pathJoin tdir (domain ++ "-llms-full.txt") := by
  unfold pathJoin
  exact string_append_left_cancel_ne
    (string_append_left_cancel_ne (by decide))

theorem amem_ainsert_self {α : Type} (l : List (String × α)) (k : String) (v : α) :
    amem (ainsert l k v) k = true := by
  simp [amem, alookup_ainsert_self]

theorem amem_erase_insert_false {α : Type} {l : List (String × α)} {k : String}
    (h : alookup l k = none) (v : α) :
    amem (aerase (ainsert l k v) k) k = false := by
  simp [amem, alookup_erase_insert h]

theorem amem_erase_insert2_false {α : Type} {l : List (String × α)} {k : String}
    (h : alookup l k = none) (v w : α) :
    amem (aerase (ainsert (ainsert l k v) k w) k) k = false := by
  simp [amem, alookup_erase_insert2 h]

/-- A run of `process_job` for one job id never touches the entries of a
different id in either job dict. -/
theorem process_job_frame {id id2 : String} (hne : id ≠ id2)
    (gi : Bool) (gen : GenOracle) (url mu ift : JValue) (tdir : String)
    (t0 t1 : Int) (s : ServerState) :
    alookup (process_job gi gen id2 url mu ift tdir t0 t1 s).completed id =
      alookup s.completed id
  ∧ alookup (process_job gi gen id2 url mu ift tdir t0 t1 s).active id =
      alookup s.active id := by
  cases gi with
  | false =>
    simp only [process_job, processJobTrace, failSteps, lastD]
    exact ⟨alookup_ainsert_ne hne _ _,
      by rw [alookup_aerase_ne hne, alookup_ainsert_ne hne]⟩
  | true =>
    rcases hg : gen url mu ift with e | r
    · simp only [process_job, processJobTrace, hg, failSteps, lastD]
      exact ⟨alookup_ainsert_ne hne _ _,
        by rw [alookup_aerase_ne hne, alookup_ainsert_ne hne, alookup_ainsert_ne hne]⟩
    · cases url with
      | jstr ustr =>
        by_cases ht : JValue.truthy ift = true
        · rcases hf : r.llms_fulltxt with _ | full
          · simp only [process_job, processJobTrace, hg, hf, ht, if_pos, failSteps, lastD]
            exact ⟨alookup_ainsert_ne hne _ _,
              by rw [alookup_aerase_ne hne, alookup_ainsert_ne hne, alookup_ainsert_ne hne]⟩
          · simp only [process_job, processJobTrace, hg, hf, ht, if_pos, completeSteps, lastD]
            exact ⟨alookup_ainsert_ne hne _ _,
              by rw [alookup_aerase_ne hne, alookup_ainsert_ne hne, alookup_ainsert_ne hne]⟩
        · simp only [Bool.not_eq_true] at ht
          simp only [process_job, processJobTrace, hg, ht, Bool.false_eq_true, if_false,
            completeSteps, lastD]
          exact ⟨alookup_ainsert_ne hne _ _,
            by rw [alookup_aerase_ne hne, alookup_ainsert_ne hne, alookup_ainsert_ne hne]⟩
      | jnull =>
        simp only [process_job, processJobTrace, hg, failSteps, lastD]
        exact ⟨alookup_ainsert_ne hne _ _,
          by rw [alookup_aerase_ne hne, alookup_ainsert_ne hne, alookup_ainsert_ne hne]⟩
      | jbool b =>
        simp only [process_job, processJobTrace, hg, failSteps, lastD]
        exact ⟨alookup_ainsert_ne hne _ _,
          by rw [alookup_aerase_ne hne, alookup_ainsert_ne hne, alookup_ainsert_ne hne]⟩
      | jnum n =>
        simp only [process_job, processJobTrace, hg, failSteps, lastD]
        exact ⟨alookup_ainsert_ne hne _ _,
          by rw [alookup_aerase_ne hne, alookup_ainsert_ne hne, alookup_ainsert_ne hne]⟩

/-- Every run of `process_job` leaves the job in `COMPLETED_JOBS` with a
terminal status and removes it from `ACTIVE_JOBS`. -/
theorem process_job_terminal (gi : Bool) (gen : GenOracle) (id : String)
    (url mu ift : JValue) (tdir : String) (t0 t1 : Int) (s : ServerState)
    (hA : alookup s.active id = none) :
    ∃ c : CompletedJob,
      alookup (process_job gi gen id url mu ift tdir t0 t1 s).completed id = some c
      ∧ (c.status = "completed" ∨ c.status = "failed")
      ∧ alookup (process_job gi gen id url mu ift tdir t0 t1 s).active id = none := by
  cases gi with
  | false =>
    simp only [process_job, processJobTrace, failSteps, lastD]
    exact ⟨_, alookup_ainsert_self _ _ _, Or.inr rfl, alookup_erase_insert hA _⟩
  | true =>
    rcases hg : gen url mu ift with e | r
    · simp only [process_job, processJobTrace, hg, failSteps, lastD]
      exact ⟨_, alookup_ainsert_self _ _ _, Or.inr rfl, alookup_erase_insert2 hA _ _⟩
    · cases url with
      | jstr ustr =>
        by_cases ht : JValue.truthy ift = true
        · rcases hf : r.llms_fulltxt with _ | full
          · simp only [process_job, processJobTrace, hg, hf, ht, if_pos, failSteps, lastD]
            exact ⟨_, alookup_ainsert_self _ _ _, Or.inr rfl, alookup_erase_insert2 hA _ _⟩
          · simp only [process_job, processJobTrace, hg, hf, ht, if_pos, completeSteps, lastD]
            exact ⟨_, alookup_ainsert_self _ _ _, Or.inl rfl, alookup_erase_insert2 hA _ _⟩
        · simp only [Bool.not_eq_true] at ht
          simp only [process_job, processJobTrace, hg, ht, Bool.false_eq_true, if_false,
            completeSteps, lastD]
          exact ⟨_, alookup_ainsert_self _ _ _, Or.inl rfl, alookup_erase_insert2 hA _ _⟩
      | jnull =>
        simp only [process_job, processJobTrace, hg, failSteps, lastD]
        exact ⟨_, alookup_ainsert_self _ _ _, Or.inr rfl, alookup_erase_insert2 hA _ _⟩
      | jbool b =>
        simp only [process_job, processJobTrace, hg, failSteps, lastD]
        exact ⟨_, alookup_ainsert_self _ _ _, Or.inr rfl, alookup_erase_insert2 hA _ _⟩
      | jnum n =>
        simp only [process_job, processJobTrace, hg, failSteps, lastD]
        exact ⟨_, alookup_ainsert_self _ _ _, Or.inr rfl, alookup_erase_insert2 hA _ _⟩

/-- Claim C2 (confirmed): every job run ends with the id in the completed
set carrying exactly one of the terminal statuses `"completed"` or
`"failed"` and absent from the pending set; afterwards a status query
leaves the state unchanged, and a processing task for a different id
neither changes the terminal record nor re-inserts the id into the
pending set.  (`download_file` and `generate` are pure in the embedding:
they take the state and return only a response, so they cannot alter any
record.) -/
theorem claim_C2 (gi : Bool) (gen : GenOracle) (id : String)
    (url mu ift : JValue) (tdir : String) (t0 t1 : Int) (s : ServerState)
    (hA : alookup s.active id = none) :
    ∃ c : CompletedJob,
      alookup (process_job gi gen id url mu ift tdir t0 t1 s).completed id = some c
    ∧ (c.status = "completed" ∨ c.status = "failed")
    ∧ alookup (process_job gi gen id url mu ift tdir t0 t1 s).active id = none
    ∧ (∀ q, (get_status (process_job gi gen id url mu ift tdir t0 t1 s) q).2 =
          process_job gi gen id url mu ift tdir t0 t1 s)
    ∧ (∀ (gi2 : Bool) (gen2 : GenOracle) (id2 : String) (url2 mu2 ift2 : JValue)
          (tdir2 : String) (t02 t12 : Int), id2 ≠ id →
        alookup (process_job gi2 gen2 id2 url2 mu2 ift2 tdir2 t02 t12
            (process_job gi gen id url mu ift tdir t0 t1 s)).completed id = some c
      ∧ alookup (process_job gi2 gen2 id2 url2 mu2 ift2 tdir2 t02 t12
            (process_job gi gen id url mu ift tdir t0 t1 s)).active id = none) := by
  obtain ⟨c, h1, h2, h3⟩ := process_job_terminal gi gen id url mu ift tdir t0 t1 s hA
  refine ⟨c, h1, h2, h3, fun q => get_status_state _ q, ?_⟩
  intro gi2 gen2 id2 url2 mu2 ift2 tdir2 t02 t12 hne
  constructor
  · rw [(process_job_frame (Ne.symm hne) gi2 gen2 url2 mu2 ift2 tdir2 t02 t12 _).1]
    exact h1
  · rw [(process_job_frame (Ne.symm hne) gi2 gen2 url2 mu2 ift2 tdir2 t02 t12 _).2]
    exact h3

/-- Witness for C2 at a concrete successful run from the empty state. -/
theorem claim_C2_witness :
    (alookup (process_job true (fun _ _ _ => Except.ok ⟨"I", some "F", 1⟩) "j"
        (JValue.jstr "https://example.com") (JValue.jnum 5) (JValue.jbool true)
        "/tmp/w2" 0 9 emptyState).completed "j").isSome = true
  ∧ alookup (process_job true (fun _ _ _ => Except.ok ⟨"I", some "F", 1⟩) "j"
        (JValue.jstr "https://example.com") (JValue.jnum 5) (JValue.jbool true)
        "/tmp/w2" 0 9 emptyState).active "j" = none := by
  obtain ⟨c, h1, h2, h3, h4, h5⟩ :=
    claim_C2 true (fun _ _ _ => Except.ok ⟨"I", some "F", 1⟩) "j"
      (JValue.jstr "https://example.com") (JValue.jnum 5) (JValue.jbool true)
      "/tmp/w2" 0 9 emptyState rfl
  exact ⟨by rw [h1]; rfl, h3⟩

/-- Claim C6 (confirmed): a completed-record status response always has
the `files` and `temp_dir` fields stripped; a pending id gets its live
record; an id in neither dict gets a 404. -/
theorem claim_C6 (s : ServerState) (id : String) :
    (∀ c, (get_status s id).1 = StatusResponse.ok_completed c →
        c.files = none ∧ c.temp_dir = none)
  ∧ (∀ p, alookup s.active id = some p →
        (get_status s id).1 = StatusResponse.ok_pending p)
  ∧ (∀ c, alookup s.active id = none → alookup s.completed id = some c →
        (get_status s id).1 =
          StatusResponse.ok_completed { c with files := none, temp_dir := none })
  ∧ (alookup s.active id = none → alookup s.completed id = none →
        (get_status s id).1 = StatusResponse.not_found
      ∧ StatusResponse.code (get_status s id).1 = 404) := by
  refine ⟨?_, ?_, ?_, ?_⟩
  · intro c hc
    rcases ha : alookup s.active id with _ | p
    · rcases hb : alookup s.completed id with _ | c2
      · simp [get_status, ha, hb] at hc
      · simp only [get_status, ha, hb] at hc
        cases hc
        exact ⟨rfl, rfl⟩
    · simp [get_status, ha] at hc
  · intro p hp
    simp [get_status, hp]
  · intro c h1 h2
    simp [get_status, h1, h2]
  · intro h1 h2
    constructor <;> simp [get_status, h1, h2, StatusResponse.code]

/-- A pending job fixture (the record `process_job` creates first). -/
def exPending : PendingJob :=
  { url := .jstr "https://example.com", status := "processing",
    progress := "Initializing...", start_time := 0 }

/-- A successfully completed job fixture with staged files. -/
def exCompleted : CompletedJob :=
  { url := .jstr "https://example.com", status := "completed",
    result := some ⟨"I", some "F", 2⟩, error := none,
    files := some ⟨"/tmp/e/example.com-llms.txt",
      some "/tmp/e/example.com-llms-full.txt"⟩,
    completion_time := 5, temp_dir := some "/tmp/e" }

/-- A server state holding one pending and one completed job. -/
def exState : ServerState :=
  { active := [("p1", exPending)], completed := [("c1", exCompleted)],
    fs := [("/tmp/e/example.com-llms.txt", "I"),
           ("/tmp/e/example.com-llms-full.txt", "F")],
    dirs := ["/tmp/e"] }

/-- Witness for C6 on a concrete state with a pending job, a completed
job and an unknown id. -/
theorem claim_C6_witness :
    (get_status exState "c1").1 =
      StatusResponse.ok_completed { exCompleted with files := none, temp_dir := none }
  ∧ (get_status exState "p1").1 = StatusResponse.ok_pending exPending
  ∧ (get_status exState "zz").1 = StatusResponse.not_found := by
  refine ⟨(claim_C6 exState "c1").2.2.1 exCompleted (by decide) (by decide),
          (claim_C6 exState "p1").2.1 exPending (by decide),
          ((claim_C6 exState "zz").2.2.2 (by decide) (by decide)).1⟩

/-- Claim C9 (confirmed): status queries never mutate the stored
completed record — the field deletions act on a copy — so after any
sequence of status queries the state is unchanged, the record keeps its
`files` and `temp_dir` entries, and downloads behave identically. -/
theorem claim_C9 (s : ServerState) (qs : List String) (id : String)
    (c : CompletedJob) (ft : String) (h : alookup s.completed id = some c) :
    statusFold s qs = s
  ∧ alookup (statusFold s qs).completed id = some c
  ∧ download_file (statusFold s qs) id ft = download_file s id ft := by
  refine ⟨statusFold_eq s qs, ?_, ?_⟩
  · rw [statusFold_eq]
    exact h
  · rw [statusFold_eq]

/-- Witness for C9: four status queries on a concrete state, then a
download of the index file, unchanged. -/
theorem claim_C9_witness :
    statusFold exState ["c1", "p1", "zz", "c1"] = exState
  ∧ download_file (statusFold exState ["c1", "p1", "zz", "c1"]) "c1" "llmstxt" =
      download_file exState "c1" "llmstxt" := by
  obtain ⟨h1, h2, h3⟩ :=
    claim_C9 exState ["c1", "p1", "zz", "c1"] "c1" exCompleted "llmstxt" (by decide)
  exact ⟨h1, h3⟩

/-- A failed job fixture (the record the exception handler creates). -/
def exFailed : CompletedJob :=
  { url := .jstr "https://example.com", status := "failed", result := none,
    error := some "boom", files := none, completion_time := 7, temp_dir := none }

/-- A server state holding one successful and one failed completed job. -/
def exState2 : ServerState :=
  { active := [], completed := [("c1", exCompleted), ("f1", exFailed)],
    fs := [("/tmp/e/example.com-llms.txt", "I"),
           ("/tmp/e/example.com-llms-full.txt", "F")],
    dirs := ["/tmp/e"] }

/-- Claim C5 (corrected): anything not in the completed dict — unknown
ids and still-pending jobs alike — gets a 404; a completed-dict record
whose status is not `"completed"` (i.e. a failed job) gets a 400; a
completed job without the requested kind gets a 404; otherwise the bytes
stored at the recorded path are served. -/
theorem claim_C5_amended (s : ServerState) (id ftype : String) :
    (alookup s.completed id = none →
        download_file s id ftype = DownloadResponse.notFoundJob
      ∧ DownloadResponse.code (download_file s id ftype) = 404)
  ∧ (∀ c, alookup s.completed id = some c → c.status ≠ "completed" →
        download_file s id ftype = DownloadResponse.notCompleted
      ∧ DownloadResponse.code (download_file s id ftype) = 400)
  ∧ (∀ c fl, alookup s.completed id = some c → c.status = "completed" →
        c.files = some fl → ftype = "llms_fulltxt" → fl.llms_fulltxt = none →
        download_file s id ftype = DownloadResponse.fileNotFound
      ∧ DownloadResponse.code (download_file s id ftype) = 404)
  ∧ (∀ c fl b, alookup s.completed id = some c → c.status = "completed" →
        c.files = some fl → ftype = "llmstxt" → fl.llmstxt ≠ "" →
        alookup s.fs fl.llmstxt = some b →
        download_file s id ftype = DownloadResponse.fileAttachment b)
  ∧ (∀ c fl p b, alookup s.completed id = some c → c.status = "completed" →
        c.files = some fl → ftype = "llms_fulltxt" → fl.llms_fulltxt = some p →
        p ≠ "" → alookup s.fs p = some b →
        download_file s id ftype = DownloadResponse.fileAttachment b) := by
  refine ⟨?_, ?_, ?_, ?_, ?_⟩
  · intro h
    constructor <;> simp [download_file, h, DownloadResponse.code]
  · intro c hc hst
    constructor <;> simp [download_file, hc, hst, DownloadResponse.code]
  · intro c fl hc hst hfl hft hful
    subst hft
    constructor <;> simp [download_file, hc, hst, hfl, hful, DownloadResponse.code]
  · intro c fl b hc hst hfl hft hne hb
    subst hft
    simp [download_file, hc, hst, hfl, hne, sendFileResp, hb]
  · intro c fl p b hc hst hfl hft hp hpne hb
    subst hft
    simp [download_file, hc, hst, hfl, hp, hpne, sendFileResp, hb]

/-- Counterexample to C5 as stated: a job whose record exists in the
pending dict with status `"processing"` (not `"completed"`) is answered
with 404 (`download_file` consults only `COMPLETED_JOBS`), not with the
claimed 400 bad-state error. -/
theorem claim_C5_counterexample :
    alookup exState.active "p1" = some exPending
  ∧ (exPending.status == "completed") = false
  ∧ download_file exState "p1" "llmstxt" = DownloadResponse.notFoundJob
  ∧ DownloadResponse.code (download_file exState "p1" "llmstxt") = 404 := by decide

/-- Witness for the amended C5 on concrete states: unknown id, failed
job, and both kinds of a successful job. -/
theorem claim_C5_witness :
    download_file exState2 "zz" "llmstxt" = DownloadResponse.notFoundJob
  ∧ download_file exState2 "f1" "llmstxt" = DownloadResponse.notCompleted
  ∧ DownloadResponse.code (download_file exState2 "f1" "llmstxt") = 400
  ∧ download_file exState2 "c1" "llmstxt" = DownloadResponse.fileAttachment "I"
  ∧ download_file exState2 "c1" "llms_fulltxt" = DownloadResponse.fileAttachment "F" := by
  refine ⟨((claim_C5_amended exState2 "zz" "llmstxt").1 (by decide)).1,
          ((claim_C5_amended exState2 "f1" "llmstxt").2.1 exFailed (by decide) (by decide)).1,
          ((claim_C5_amended exState2 "f1" "llmstxt").2.1 exFailed (by decide) (by decide)).2,
          (claim_C5_amended exState2 "c1" "llmstxt").2.2.2.1 exCompleted
            ⟨"/tmp/e/example.com-llms.txt", some "/tmp/e/example.com-llms-full.txt"⟩
            "I" (by decide) (by decide) (by decide) rfl (by decide) (by decide),
          (claim_C5_amended exState2 "c1" "llms_fulltxt").2.2.2.2 exCompleted
            ⟨"/tmp/e/example.com-llms.txt", some "/tmp/e/example.com-llms-full.txt"⟩
            "/tmp/e/example.com-llms-full.txt" "F" (by decide) (by decide) (by decide)
            rfl (by decide) (by decide) (by decide)⟩

/-- Claim C7 (corrected): a missing `url` key (or an unreadable/empty
body) is answered with a 500 — the raised `BadRequest` is swallowed by
the blanket handler — not with a 4xx, and no task is spawned; any body
carrying a `url` key, an empty string included, immediately gets a fresh
id with status started and spawns the task.  `generate` does not touch
the job dicts at all, so no record is created on the error path. -/
theorem claim_C7_amended (fid : String) :
    (generate none fid =
        (GenerateResponse.errorResp "400 Bad Request: URL is required", none)
      ∧ GenerateResponse.code (generate none fid).1 = 500)
  ∧ (∀ d : Obj, alookup d "url" = none →
        generate (some d) fid =
          (GenerateResponse.errorResp "400 Bad Request: URL is required", none)
      ∧ GenerateResponse.code (generate (some d) fid).1 = 500)
  ∧ (∀ (d : Obj) (u : JValue), alookup d "url" = some u →
        (generate (some d) fid).1 =
          GenerateResponse.started fid "Job started successfully"
      ∧ ∃ sp : Spawned, (generate (some d) fid).2 = some sp
          ∧ sp.job_id = fid ∧ sp.url = u) := by
  refine ⟨⟨rfl, rfl⟩, ?_, ?_⟩
  · intro d h
    by_cases hd : d = []
    · subst hd
      exact ⟨rfl, rfl⟩
    · constructor <;> simp [generate, hd, h, GenerateResponse.code]
  · intro d u h
    have hd : ¬ d = [] := by
      intro he
      subst he
      simp [alookup] at h
    refine ⟨by simp [generate, hd, h],
      ⟨{ job_id := fid, url := u,
         max_urls := (alookup d "max_urls").getD (JValue.jnum 20),
         include_full_text := (alookup d "include_full_text").getD (JValue.jbool true) },
       by simp [generate, hd, h], rfl, rfl⟩⟩

/-- Counterexample to C7 as stated: a body without `url` is answered
with code 500, which is not a 4xx client error; and a body whose `url`
is the empty string is accepted and spawns a job instead of failing. -/
theorem claim_C7_counterexample :
    GenerateResponse.code (generate (some [("max_urls", JValue.jnum 5)]) "f1").1 = 500
  ∧ decide (400 ≤ GenerateResponse.code (generate (some [("max_urls", JValue.jnum 5)]) "f1").1
      ∧ GenerateResponse.code (generate (some [("max_urls", JValue.jnum 5)]) "f1").1 < 500) = false
  ∧ (generate (some [("max_urls", JValue.jnum 5)]) "f1").2 = none
  ∧ (generate (some [("url", JValue.jstr "")]) "f2").1 =
      GenerateResponse.started "f2" "Job started successfully"
  ∧ (generate (some [("url", JValue.jstr "")]) "f2").2 =
      some { job_id := "f2", url := JValue.jstr "", max_urls := JValue.jnum 20,
             include_full_text := JValue.jbool true } := by decide

/-- Witness for the amended C7 on a concrete missing-url body and a
concrete valid body. -/
theorem claim_C7_witness :
    generate (some [("max_urls", JValue.jnum 5)]) "w7" =
      (GenerateResponse.errorResp "400 Bad Request: URL is required", none)
  ∧ (generate (some [("url", JValue.jstr "https://example.com")]) "w7").1 =
      GenerateResponse.started "w7" "Job started successfully" := by
  refine ⟨((claim_C7_amended "w7").2.1 [("max_urls", JValue.jnum 5)] (by decide)).1,
          ((claim_C7_amended "w7").2.2 [("url", JValue.jstr "https://example.com")]
            (JValue.jstr "https://example.com") (by decide)).1⟩

/-- Claim C10 (confirmed): the only validation is presence of the `url`
key; the url, `max_urls` and `include_full_text` values are handed to the
spawned task exactly as found in the body (`.get` defaults 20 and true
apply only when the key is absent), and the processing task's outcome
depends on the generator oracle only through its value at exactly those
arguments — i.e. the generator is called with the submitted parameters
unchanged. -/
theorem claim_C10 (d : Obj) (u : JValue) (fid : String)
    (h : alookup d "url" = some u) :
    generate (some d) fid =
      (GenerateResponse.started fid "Job started successfully",
       some { job_id := fid, url := u,
              max_urls := (alookup d "max_urls").getD (JValue.jnum 20),
              include_full_text := (alookup d "include_full_text").getD (JValue.jbool true) })
  ∧ (∀ v, alookup d "max_urls" = some v →
        (alookup d "max_urls").getD (JValue.jnum 20) = v)
  ∧ (alookup d "max_urls" = none →
        (alookup d "max_urls").getD (JValue.jnum 20) = JValue.jnum 20)
  ∧ (∀ v, alookup d "include_full_text" = some v →
        (alookup d "include_full_text").getD (JValue.jbool true) = v)
  ∧ (alookup d "include_full_text" = none →
        (alookup d "include_full_text").getD (JValue.jbool true) = JValue.jbool true)
  ∧ (∀ (gi : Bool) (g1 g2 : GenOracle) (id : String) (mu ift : JValue)
        (tdir : String) (t0 t1 : Int) (st : ServerState),
        g1 u mu ift = g2 u mu ift →
        processJobTrace gi g1 id u mu ift tdir t0 t1 st =
          processJobTrace gi g2 id u mu ift tdir t0 t1 st
      ∧ process_job gi g1 id u mu ift tdir t0 t1 st =
          process_job gi g2 id u mu ift tdir t0 t1 st) := by
  have hd : ¬ d = [] := by
    intro he
    subst he
    simp [alookup] at h
  refine ⟨by simp [generate, hd, h], ?_, ?_, ?_, ?_, ?_⟩
  · intro v hv
    rw [hv]
    rfl
  · intro hv
    rw [hv]
    rfl
  · intro v hv
    rw [hv]
    rfl
  · intro hv
    rw [hv]
    rfl
  · intro gi g1 g2 id mu ift tdir t0 t1 st hag
    have htr : processJobTrace gi g1 id u mu ift tdir t0 t1 st =
        processJobTrace gi g2 id u mu ift tdir t0 t1 st := by
      unfold processJobTrace
      rw [hag]
    exact ⟨htr, by unfold process_job; rw [htr]⟩

/-- A submission body with all three keys present. -/
def d10 : Obj :=
  [("url", JValue.jstr "https://example.com"), ("max_urls", JValue.jnum 10),
   ("include_full_text", JValue.jbool false)]

/-- Witness for C10 on a concrete body: the spawned task receives the
body's values verbatim. -/
theorem claim_C10_witness :
    generate (some d10) "w10" =
      (GenerateResponse.started "w10" "Job started successfully",
       some { job_id := "w10", url := JValue.jstr "https://example.com",
              max_urls := JValue.jnum 10,
              include_full_text := JValue.jbool false }) := by
  have h := (claim_C10 d10 (JValue.jstr "https://example.com") "w10" (by decide)).1
  exact h.trans (by decide)

/-- Claim C1 (corrected): during the move performed at job completion the
id is never in neither dict and ends up in exactly the completed dict,
but the move is two separate dict statements — insert into
`COMPLETED_JOBS`, then delete from `ACTIVE_JOBS` — so every run passes
through a transient shared state in which the id is present in both
dicts at once. -/
theorem claim_C1_amended (gi : Bool) (gen : GenOracle) (id : String)
    (url mu ift : JValue) (tdir : String) (t0 t1 : Int) (s : ServerState)
    (hA : alookup s.active id = none) :
    (∀ t ∈ processJobTrace gi gen id url mu ift tdir t0 t1 s,
        amem t.active id = true ∨ amem t.completed id = true)
  ∧ (∃ t ∈ processJobTrace gi gen id url mu ift tdir t0 t1 s,
        amem t.active id = true ∧ amem t.completed id = true)
  ∧ amem (process_job gi gen id url mu ift tdir t0 t1 s).completed id = true
  ∧ amem (process_job gi gen id url mu ift tdir t0 t1 s).active id = false := by
  cases gi with
  | false =>
    simp only [process_job, processJobTrace, failSteps, lastD]
    refine ⟨?_, ?_, amem_ainsert_self _ _ _, amem_erase_insert_false hA _⟩
    · intro t ht
      simp only [List.mem_cons, List.not_mem_nil, or_false] at ht
      rcases ht with rfl | rfl | rfl
      all_goals first
        | exact Or.inl (amem_ainsert_self _ _ _)
        | exact Or.inr (amem_ainsert_self _ _ _)
    · exact ⟨_, List.mem_cons_of_mem _ (List.mem_cons_self _ _),
        amem_ainsert_self _ _ _, amem_ainsert_self _ _ _⟩
  | true =>
    rcases hg : gen url mu ift with e | r
    · simp only [process_job, processJobTrace, hg, failSteps, lastD]
      refine ⟨?_, ?_, amem_ainsert_self _ _ _, amem_erase_insert2_false hA _ _⟩
      · intro t ht
        simp only [List.mem_cons, List.not_mem_nil, or_false] at ht
        rcases ht with rfl | rfl | rfl | rfl
        all_goals first
          | exact Or.inl (amem_ainsert_self _ _ _)
          | exact Or.inr (amem_ainsert_self _ _ _)
      · exact ⟨_, List.mem_cons_of_mem _ (List.mem_cons_of_mem _ (List.mem_cons_self _ _)),
          amem_ainsert_self _ _ _, amem_ainsert_self _ _ _⟩
    · cases url with
      | jstr ustr =>
        by_cases ht : JValue.truthy ift = true
        · rcases hf : r.llms_fulltxt with _ | full
          · simp only [process_job, processJobTrace, hg, hf, ht, if_pos, failSteps, lastD]
            refine ⟨?_, ?_, amem_ainsert_self _ _ _, amem_erase_insert2_false hA _ _⟩
            · intro t hmem
              simp only [List.mem_cons, List.not_mem_nil, or_false] at hmem
              rcases hmem with rfl | rfl | rfl | rfl | rfl | rfl
              all_goals first
                | exact Or.inl (amem_ainsert_self _ _ _)
                | exact Or.inr (amem_ainsert_self _ _ _)
            · exact ⟨_, List.mem_cons_of_mem _ (List.mem_cons_of_mem _
                (List.mem_cons_of_mem _ (List.mem_cons_of_mem _ (List.mem_cons_self _ _)))),
                amem_ainsert_self _ _ _, amem_ainsert_self _ _ _⟩
          · simp only [process_job, processJobTrace, hg, hf, ht, if_pos, completeSteps, lastD]
            refine ⟨?_, ?_, amem_ainsert_self _ _ _, amem_erase_insert2_false hA _ _⟩
            · intro t hmem
              simp only [List.mem_cons, List.not_mem_nil, or_false] at hmem
              rcases hmem with rfl | rfl | rfl | rfl | rfl | rfl | rfl
              all_goals first
                | exact Or.inl (amem_ainsert_self _ _ _)
                | exact Or.inr (amem_ainsert_self _ _ _)
            · exact ⟨_, List.mem_cons_of_mem _ (List.mem_cons_of_mem _
                (List.mem_cons_of_mem _ (List.mem_cons_of_mem _
                  (List.mem_cons_of_mem _ (List.mem_cons_self _ _))))),
                amem_ainsert_self _ _ _, amem_ainsert_self _ _ _⟩
        · simp only [Bool.not_eq_true] at ht
          simp only [process_job, processJobTrace, hg, ht, Bool.false_eq_true, if_false,
            completeSteps, lastD]
          refine ⟨?_, ?_, amem_ainsert_self _ _ _, amem_erase_insert2_false hA _ _⟩
          · intro t hmem
            simp only [List.mem_cons, List.not_mem_nil, or_false] at hmem
            rcases hmem with rfl | rfl | rfl | rfl | rfl | rfl
            all_goals first
              | exact Or.inl (amem_ainsert_self _ _ _)
              | exact Or.inr (amem_ainsert_self _ _ _)
          · exact ⟨_, List.mem_cons_of_mem _ (List.mem_cons_of_mem _
              (List.mem_cons_of_mem _ (List.mem_cons_of_mem _ (List.mem_cons_self _ _)))),
              amem_ainsert_self _ _ _, amem_ainsert_self _ _ _⟩
      | jnull =>
        simp only [process_job, processJobTrace, hg, failSteps, lastD]
        refine ⟨?_, ?_, amem_ainsert_self _ _ _, amem_erase_insert2_false hA _ _⟩
        · intro t hmem
          simp only [List.mem_cons, List.not_mem_nil, or_false] at hmem
          rcases hmem with rfl | rfl | rfl | rfl | rfl
          all_goals first
            | exact Or.inl (amem_ainsert_self _ _ _)
            | exact Or.inr (amem_ainsert_self _ _ _)
        · exact ⟨_, List.mem_cons_of_mem _ (List.mem_cons_of_mem _
            (List.mem_cons_of_mem _ (List.mem_cons_self _ _))),
            amem_ainsert_self _ _ _, amem_ainsert_self _ _ _⟩
      | jbool b =>
        simp only [process_job, processJobTrace, hg, failSteps, lastD]
        refine ⟨?_, ?_, amem_ainsert_self _ _ _, amem_erase_insert2_false hA _ _⟩
        · intro t hmem
          simp only [List.mem_cons, List.not_mem_nil, or_false] at hmem
          rcases hmem with rfl | rfl | rfl | rfl | rfl
          all_goals first
            | exact Or.inl (amem_ainsert_self _ _ _)
            | exact Or.inr (amem_ainsert_self _ _ _)
        · exact ⟨_, List.mem_cons_of_mem _ (List.mem_cons_of_mem _
            (List.mem_cons_of_mem _ (List.mem_cons_self _ _))),
            amem_ainsert_self _ _ _, amem_ainsert_self _ _ _⟩
      | jnum n =>
        simp only [process_job, processJobTrace, hg, failSteps, lastD]
        refine ⟨?_, ?_, amem_ainsert_self _ _ _, amem_erase_insert2_false hA _ _⟩
        · intro t hmem
          simp only [List.mem_cons, List.not_mem_nil, or_false] at hmem
          rcases hmem with rfl | rfl | rfl | rfl | rfl
          all_goals first
            | exact Or.inl (amem_ainsert_self _ _ _)
            | exact Or.inr (amem_ainsert_self _ _ _)
        · exact ⟨_, List.mem_cons_of_mem _ (List.mem_cons_of_mem _
            (List.mem_cons_of_mem _ (List.mem_cons_self _ _))),
            amem_ainsert_self _ _ _, amem_ainsert_self _ _ _⟩

/-- The trace of a concrete successful run (full text not requested). -/
def c1Trace : List ServerState :=
  processJobTrace true (fun _ _ _ => Except.ok ⟨"IDX", none, 2⟩) "j"
    (JValue.jstr "https://example.com") (JValue.jnum 10) (JValue.jbool false)
    "/tmp/d" 0 5 emptyState

/-- The state of that run between the `COMPLETED_JOBS` insert and the
`ACTIVE_JOBS` delete. -/
def c1Mid : ServerState := c1Trace.getD 4 emptyState

/-- Counterexample to C1 as stated: the shared state reached between the
two statements of the move has the job id in the pending dict and in the
completed dict at the same time, and the query interface observes it —
`health` counts the job in both dicts. -/
theorem claim_C1_counterexample :
    c1Mid ∈ c1Trace
  ∧ amem c1Mid.active "j" = true
  ∧ amem c1Mid.completed "j" = true
  ∧ health true c1Mid =
      { status := "healthy", generator_ready := true,
        active_jobs := 1, completed_jobs := 1 } := by decide

/-- Witness for the amended C1 at a concrete run. -/
theorem claim_C1_witness :
    amem (process_job true (fun _ _ _ => Except.ok ⟨"IDX", none, 2⟩) "j"
        (JValue.jstr "https://example.com") (JValue.jnum 10) (JValue.jbool false)
        "/tmp/dw1" 0 5 emptyState).completed "j" = true
  ∧ amem (process_job true (fun _ _ _ => Except.ok ⟨"IDX", none, 2⟩) "j"
        (JValue.jstr "https://example.com") (JValue.jnum 10) (JValue.jbool false)
        "/tmp/dw1" 0 5 emptyState).active "j" = false := by
  obtain ⟨h1, h2, h3, h4⟩ :=
    claim_C1_amended true (fun _ _ _ => Except.ok ⟨"IDX", none, 2⟩) "j"
      (JValue.jstr "https://example.com") (JValue.jnum 10) (JValue.jbool false)
      "/tmp/dw1" 0 5 emptyState rfl
  exact ⟨h3, h4⟩

/-- Claim C3 (corrected): failures raised before or at the generator call
— uninitialized generator, or an exception from the generator — leave a
failed record carrying the stringified exception, remove the id from the
pending dict and touch neither files nor directories; the uninitialized
case's error text contains `not initialized`.  But a failure raised
during file staging (the requested full-text document absent from the
generator's result payload raises a `KeyError` after the index file was
written) still ends failed with no files recorded, yet the index file is
already on disk. -/
theorem claim_C3_amended (gi : Bool) (gen : GenOracle) (id : String)
    (url mu ift : JValue) (tdir : String) (t0 t1 : Int) (s : ServerState)
    (hA : alookup s.active id = none) :
    (gi = false →
        alookup (process_job gi gen id url mu ift tdir t0 t1 s).completed id =
          some { url := url, status := "failed", result := none,
                 error := some "Generator not initialized - check API keys",
                 files := none, completion_time := t1, temp_dir := none }
      ∧ hasSubstr "Generator not initialized - check API keys" "not initialized" = true
      ∧ (process_job gi gen id url mu ift tdir t0 t1 s).fs = s.fs
      ∧ (process_job gi gen id url mu ift tdir t0 t1 s).dirs = s.dirs
      ∧ alookup (process_job gi gen id url mu ift tdir t0 t1 s).active id = none)
  ∧ (∀ e, gi = true → gen url mu ift = Except.error e →
        alookup (process_job gi gen id url mu ift tdir t0 t1 s).completed id =
          some { url := url, status := "failed", result := none, error := some e,
                 files := none, completion_time := t1, temp_dir := none }
      ∧ (process_job gi gen id url mu ift tdir t0 t1 s).fs = s.fs
      ∧ (process_job gi gen id url mu ift tdir t0 t1 s).dirs = s.dirs
      ∧ alookup (process_job gi gen id url mu ift tdir t0 t1 s).active id = none)
  ∧ (∀ (r : GenResult) (u2 : String), gi = true → url = JValue.jstr u2 →
        gen url mu ift = Except.ok r → ift.truthy = true → r.llms_fulltxt = none →
        alookup (process_job gi gen id url mu ift tdir t0 t1 s).completed id =
          some { url := url, status := "failed", result := none,
                 error := some "\x27llms_fulltxt\x27",
                 files := none, completion_time := t1, temp_dir := none }
      ∧ alookup (process_job gi gen id url mu ift tdir t0 t1 s).fs
          (pathJoin tdir (pyReplace (pyNetloc u2) "www." "" ++ "-llms.txt")) =
          some r.llmstxt
      ∧ alookup (process_job gi gen id url mu ift tdir t0 t1 s).active id = none) := by
  refine ⟨?_, ?_, ?_⟩
  · intro hgi
    subst hgi
    simp only [process_job, processJobTrace, failSteps, lastD]
    exact ⟨alookup_ainsert_self _ _ _, by decide, trivial, trivial,
      alookup_erase_insert hA _⟩
  · intro e hgi hg
    subst hgi
    simp only [process_job, processJobTrace, hg, failSteps, lastD]
    exact ⟨alookup_ainsert_self _ _ _, trivial, trivial, alookup_erase_insert2 hA _ _⟩
  · intro r u2 hgi hurl hg ht hful
    subst hgi
    subst hurl
    simp only [process_job, processJobTrace, hg, ht, if_pos, hful, failSteps, lastD]
    exact ⟨alookup_ainsert_self _ _ _, alookup_ainsert_self _ _ _,
      alookup_erase_insert2 hA _ _⟩

/-- The final state of a concrete run in which full text was requested
but the generator's result payload has no `llms_fulltxt` key. -/
def c3Run : ServerState :=
  process_job true (fun _ _ _ => Except.ok ⟨"IDX", none, 3⟩) "j"
    (JValue.jstr "https://example.com") (JValue.jnum 10) (JValue.jbool true)
    "/tmp/d3" 0 5 emptyState

/-- Counterexample to C3 as stated: this run fails (status `"failed"`),
yet the index file was written to disk before the failure — so it is not
true that every failing task writes no files. -/
theorem claim_C3_counterexample :
    alookup c3Run.completed "j" =
      some { url := JValue.jstr "https://example.com", status := "failed",
             result := none, error := some "\x27llms_fulltxt\x27", files := none,
             completion_time := 5, temp_dir := none }
  ∧ alookup c3Run.fs "/tmp/d3/example.com-llms.txt" = some "IDX" := by decide

/-- Witness for the amended C3 at a concrete uninitialized-generator
run. -/
theorem claim_C3_witness :
    alookup (process_job false (fun _ _ _ => Except.error "x") "j"
        (JValue.jstr "https://example.com") (JValue.jnum 10) (JValue.jbool true)
        "/tmp/d3w" 0 5 emptyState).completed "j" =
      some { url := JValue.jstr "https://example.com", status := "failed",
             result := none,
             error := some "Generator not initialized - check API keys",
             files := none, completion_time := 5, temp_dir := none }
  ∧ (process_job false (fun _ _ _ => Except.error "x") "j"
        (JValue.jstr "https://example.com") (JValue.jnum 10) (JValue.jbool true)
        "/tmp/d3w" 0 5 emptyState).fs = ([] : List (String × String))
  ∧ alookup (process_job false (fun _ _ _ => Except.error "x") "j"
        (JValue.jstr "https://example.com") (JValue.jnum 10) (JValue.jbool true)
        "/tmp/d3w" 0 5 emptyState).active "j" = none := by
  obtain ⟨h1, h2, h3, h4, h5⟩ :=
    (claim_C3_amended false (fun _ _ _ => Except.error "x") "j"
      (JValue.jstr "https://example.com") (JValue.jnum 10) (JValue.jbool true)
      "/tmp/d3w" 0 5 emptyState rfl).1 rfl
  exact ⟨h1, h3, h5⟩

/-- The host rule as the spec words it: strip one leading `www.` from
the URL's host.  This is the spec-side definition for comparison with
the source's `netloc.replace("www.", "")` (which removes every
occurrence). -/
def stripLeadingWww (host : String) : String :=
  if strStartsWith host "www." then host.drop 4 else host

/-- Claim C4 (corrected): on success the index document is written
byte-for-byte to `<base>-llms.txt` in the fresh temporary directory and
the full-text document to `<base>-llms-full.txt` exactly when requested
(with `files.llms_fulltxt` null otherwise) — but the base name is the
host with every occurrence of `www.` removed, not just a leading one. -/
theorem claim_C4_amended (gen : GenOracle) (id : String) (u : String)
    (mu ift : JValue) (tdir : String) (t0 t1 : Int) (s : ServerState)
    (r : GenResult)
    (hg : gen (JValue.jstr u) mu ift = Except.ok r)
    (hfresh : ∀ x, alookup s.fs (pathJoin tdir x) = none) :
    (∀ full, ift.truthy = true → r.llms_fulltxt = some full →
        alookup (process_job true gen id (JValue.jstr u) mu ift tdir t0 t1 s).fs
          (pathJoin tdir (pyReplace (pyNetloc u) "www." "" ++ "-llms.txt")) =
          some r.llmstxt
      ∧ alookup (process_job true gen id (JValue.jstr u) mu ift tdir t0 t1 s).fs
          (pathJoin tdir (pyReplace (pyNetloc u) "www." "" ++ "-llms-full.txt")) =
          some full
      ∧ alookup (process_job true gen id (JValue.jstr u) mu ift tdir t0 t1 s).completed id =
          some { url := JValue.jstr u, status := "completed", result := some r,
                 error := none,
                 files := some
                   ⟨pathJoin tdir (pyReplace (pyNetloc u) "www." "" ++ "-llms.txt"),
                    some (pathJoin tdir (pyReplace (pyNetloc u) "www." "" ++ "-llms-full.txt"))⟩,
                 completion_time := t1, temp_dir := some tdir }
      ∧ tdir ∈ (process_job true gen id (JValue.jstr u) mu ift tdir t0 t1 s).dirs)
  ∧ (ift.truthy = false →
        alookup (process_job true gen id (JValue.jstr u) mu ift tdir t0 t1 s).fs
          (pathJoin tdir (pyReplace (pyNetloc u) "www." "" ++ "-llms.txt")) =
          some r.llmstxt
      ∧ alookup (process_job true gen id (JValue.jstr u) mu ift tdir t0 t1 s).fs
          (pathJoin tdir (pyReplace (pyNetloc u) "www." "" ++ "-llms-full.txt")) = none
      ∧ alookup (process_job true gen id (JValue.jstr u) mu ift tdir t0 t1 s).completed id =
          some { url := JValue.jstr u, status := "completed", result := some r,
                 error := none,
                 files := some
                   ⟨pathJoin tdir (pyReplace (pyNetloc u) "www." "" ++ "-llms.txt"), none⟩,
                 completion_time := t1, temp_dir := some tdir }
      ∧ tdir ∈ (process_job true gen id (JValue.jstr u) mu ift tdir t0 t1 s).dirs) := by
  constructor
  · intro full ht hful
    simp only [process_job, processJobTrace, hg, ht, if_pos, hful, completeSteps, lastD]
    refine ⟨?_, alookup_ainsert_self _ _ _, alookup_ainsert_self _ _ _,
      List.mem_cons_self _ _⟩
    rw [alookup_ainsert_ne (llms_paths_ne tdir (pyReplace (pyNetloc u) "www." ""))]
    exact alookup_ainsert_self _ _ _
  · intro ht
    simp only [process_job, processJobTrace, hg, ht, Bool.false_eq_true, if_false,
      completeSteps, lastD]
    refine ⟨alookup_ainsert_self _ _ _, ?_, alookup_ainsert_self _ _ _,
      List.mem_cons_self _ _⟩
    rw [alookup_ainsert_ne (Ne.symm (llms_paths_ne tdir (pyReplace (pyNetloc u) "www." "")))]
    exact hfresh _

/-- The final state of a concrete successful run whose URL host contains
a non-leading `www.`. -/
def c4Run : ServerState :=
  process_job true (fun _ _ _ => Except.ok ⟨"IDX", none, 3⟩) "j"
    (JValue.jstr "https://docs.www.example.com") (JValue.jnum 10)
    (JValue.jbool false) "/tmp/d4" 0 5 emptyState

/-- Counterexample to C4 as stated: for host `docs.www.example.com` the
leading-`www.`-strip rule of the claim keeps the host unchanged, but the
source removes the interior `www.` as well, so the file lands at
`docs.example.com-llms.txt` and no file exists under the claimed name. -/
theorem claim_C4_counterexample :
    stripLeadingWww "docs.www.example.com" = "docs.www.example.com"
  ∧ pyNetloc "https://docs.www.example.com" = "docs.www.example.com"
  ∧ pyReplace "docs.www.example.com" "www." "" = "docs.example.com"
  ∧ alookup c4Run.fs "/tmp/d4/docs.www.example.com-llms.txt" = none
  ∧ alookup c4Run.fs "/tmp/d4/docs.example.com-llms.txt" = some "IDX" := by decide

/-- Witness for the amended C4 at a concrete run without full text. -/
theorem claim_C4_witness :
    alookup (process_job true (fun _ _ _ => Except.ok ⟨"IDX", none, 3⟩) "j"
        (JValue.jstr "https://example.com") (JValue.jnum 10) (JValue.jbool false)
        "/tmp/d4w" 0 5 emptyState).fs
      (pathJoin "/tmp/d4w" (pyReplace (pyNetloc "https://example.com") "www." "" ++ "-llms.txt")) =
      some "IDX"
  ∧ alookup (process_job true (fun _ _ _ => Except.ok ⟨"IDX", none, 3⟩) "j"
        (JValue.jstr "https://example.com") (JValue.jnum 10) (JValue.jbool false)
        "/tmp/d4w" 0 5 emptyState).fs
      (pathJoin "/tmp/d4w" (pyReplace (pyNetloc "https://example.com") "www." "" ++ "-llms-full.txt")) =
      none := by
  obtain ⟨h1, h2, h3, h4⟩ :=
    (claim_C4_amended (fun _ _ _ => Except.ok ⟨"IDX", none, 3⟩) "j"
      "https://example.com" (JValue.jnum 10) (JValue.jbool false) "/tmp/d4w" 0 5
      emptyState ⟨"IDX", none, 3⟩ rfl (fun _ => rfl)).2 rfl
  exact ⟨h1, h2⟩

theorem cleanup_next_eq (now : Int) (s : ServerState) :
    (cleanup_old_jobs now s).2 = now + 1800 := rfl

theorem cleanup_active_eq (now : Int) (s : ServerState) :
    (cleanup_old_jobs now s).1.active = s.active := by
  simp only [cleanup_old_jobs]
  exact foldl_rmJobDirs_active _ _

theorem cleanup_completed_eq (now : Int) (s : ServerState) :
    (cleanup_old_jobs now s).1.completed =
      ((s.completed.filter
          (fun kv => decide (kv.2.completion_time < now - 3600))).map Prod.fst).foldl
        aerase s.completed := by
  simp only [cleanup_old_jobs]
  rw [foldl_rmJobDirs_completed]

theorem cleanup_fs_eq (now : Int) (s : ServerState) :
    (cleanup_old_jobs now s).1.fs =
      ((s.completed.filter
          (fun kv => decide (kv.2.completion_time < now - 3600))).foldl rmJobDirs s).fs := by
  simp only [cleanup_old_jobs]

theorem cleanup_dirs_eq (now : Int) (s : ServerState) :
    (cleanup_old_jobs now s).1.dirs =
      ((s.completed.filter
          (fun kv => decide (kv.2.completion_time < now - 3600))).foldl rmJobDirs s).dirs := by
  simp only [cleanup_old_jobs]

/-- Claim C8 (confirmed): a sweep at time `now` removes exactly the
completed jobs finished more than an hour before, deletes their staged
trees and temp directories, leaves every younger completed record
untouched, answers later status queries for the removed ids with
not-found, and re-arms itself for `now + 1800` — a single strictly later
one-shot run, so runs are sequential. -/
theorem claim_C8 (now : Int) (s : ServerState)
    (hnd : (s.completed.map Prod.fst).Nodup) :
    (cleanup_old_jobs now s).2 = now + 1800
  ∧ now < (cleanup_old_jobs now s).2
  ∧ (cleanup_old_jobs now s).1.active = s.active
  ∧ (∀ id c, alookup s.completed id = some c → c.completion_time < now - 3600 →
        alookup (cleanup_old_jobs now s).1.completed id = none
      ∧ (alookup s.active id = none →
            (get_status (cleanup_old_jobs now s).1 id).1 = StatusResponse.not_found)
      ∧ (∀ d, c.temp_dir = some d →
            (∀ p, strStartsWith p (d ++ "/") = true →
                alookup (cleanup_old_jobs now s).1.fs p = none)
          ∧ d ∉ (cleanup_old_jobs now s).1.dirs))
  ∧ (∀ id c, alookup s.completed id = some c → ¬(c.completion_time < now - 3600) →
        alookup (cleanup_old_jobs now s).1.completed id = some c) := by
  refine ⟨cleanup_next_eq now s, ?_, cleanup_active_eq now s, ?_, ?_⟩
  · rw [cleanup_next_eq]
    omega
  · intro id c hc hold
    have hmem : (id, c) ∈ s.completed.filter
        (fun kv => decide (kv.2.completion_time < now - 3600)) :=
      List.mem_filter.mpr ⟨mem_of_alookup hc, decide_eq_true hold⟩
    have hid : id ∈ (s.completed.filter
        (fun kv => decide (kv.2.completion_time < now - 3600))).map Prod.fst :=
      List.mem_map.mpr ⟨(id, c), hmem, rfl⟩
    have hnone : alookup (cleanup_old_jobs now s).1.completed id = none := by
      rw [cleanup_completed_eq]
      exact alookup_foldl_aerase_mem _ _ hnd hid
    refine ⟨hnone, ?_, ?_⟩
    · intro hact
      have ha : alookup (cleanup_old_jobs now s).1.active id = none := by
        rw [cleanup_active_eq]
        exact hact
      simp [get_status, ha, hnone]
    · intro d htd
      constructor
      · intro p hp
        rw [cleanup_fs_eq]
        exact foldl_rmJobDirs_fs_gone _ _ hmem htd hp
      · rw [cleanup_dirs_eq]
        exact foldl_rmJobDirs_dirs_gone _ _ hmem htd
  · intro id c hc hyoung
    have hnotin : id ∉ (s.completed.filter
        (fun kv => decide (kv.2.completion_time < now - 3600))).map Prod.fst := by
      intro hid
      obtain ⟨⟨i2, c2⟩, hkv, hfst⟩ := List.mem_map.mp hid
      have hi2 : i2 = id := hfst
      subst hi2
      have hkmem : (i2, c2) ∈ s.completed := (List.mem_filter.mp hkv).1
      have hpred := (List.mem_filter.mp hkv).2
      have hlk : alookup s.completed i2 = some c2 := alookup_eq_of_mem_nodup hnd hkmem
      rw [hc] at hlk
      cases hlk
      exact hyoung (of_decide_eq_true hpred)
    rw [cleanup_completed_eq, alookup_foldl_aerase_not_mem _ _ hnotin]
    exact hc

/-- A completed job older than the retention window, with staged files. -/
def oldJob : CompletedJob :=
  { url := .jstr "https://old.example.com", status := "completed",
    result := some ⟨"O", none, 1⟩, error := none,
    files := some ⟨"/tmp/x/old.example.com-llms.txt", none⟩,
    completion_time := 0, temp_dir := some "/tmp/x" }

/-- A completed job inside the retention window. -/
def youngJob : CompletedJob :=
  { url := .jstr "https://new.example.com", status := "completed",
    result := some ⟨"N", none, 1⟩, error := none,
    files := some ⟨"/tmp/y/new.example.com-llms.txt", none⟩,
    completion_time := 9000, temp_dir := some "/tmp/y" }

/-- A state with one stale and one fresh completed job and their files. -/
def stateC8 : ServerState :=
  { active := [], completed := [("a", oldJob), ("b", youngJob)],
    fs := [("/tmp/x/old.example.com-llms.txt", "O"),
           ("/tmp/y/new.example.com-llms.txt", "N")],
    dirs := ["/tmp/x", "/tmp/y"] }

/-- Witness for C8: sweeping at time 10000 reaps the job completed at
time 0, deletes its tree, keeps the job completed at 9000, and re-arms
for 11800. -/
theorem claim_C8_witness :
    alookup (cleanup_old_jobs 10000 stateC8).1.completed "a" = none
  ∧ (get_status (cleanup_old_jobs 10000 stateC8).1 "a").1 = StatusResponse.not_found
  ∧ alookup (cleanup_old_jobs 10000 stateC8).1.fs "/tmp/x/old.example.com-llms.txt" = none
  ∧ decide ("/tmp/x" ∈ (cleanup_old_jobs 10000 stateC8).1.dirs) = false
  ∧ alookup (cleanup_old_jobs 10000 stateC8).1.completed "b" = some youngJob
  ∧ (cleanup_old_jobs 10000 stateC8).2 = 11800 := by
  obtain ⟨h1, h2, h3, h4, h5⟩ := claim_C8 10000 stateC8 (by decide)
  obtain ⟨ha1, ha2, ha3⟩ := h4 "a" oldJob (by decide) (by decide)
  obtain ⟨hf, hdir⟩ := ha3 "/tmp/x" rfl
  exact ⟨ha1, ha2 rfl, hf "/tmp/x/old.example.com-llms.txt" (by decide),
    decide_eq_false hdir, h5 "b" youngJob (by decide) (by decide),
    h1.trans (by decide)⟩
